import Mathlib

/-!
Verification of the merge/deduplication engine and the date-bound and diff
filters of `yearlyChunks.py` (DataPreparation repository).

The pandas data frames of the source are embedded shallowly:

* a cell value is a `Val` (string, integer or boolean);
* a `Row` is an association list from column name to value (a missing column
  reads as `none`, matching how `pd.concat` fills absent columns with NaN and
  how `drop_duplicates` treats NaN as equal to NaN);
* a `DF` is an ordered column list together with an ordered row list; the
  dense integer index of a frame is the list position, so `reset_index` is
  the identity of this model.

`drop_duplicates(subset, keep='first')` is embedded as `dedupFirst`, which
keeps the first row of each key in order.  In-place column assignment
(`df['Stub'] = ...`) is embedded by state passing: `mergeSt` returns the
post-call states of both inputs next to the merge result.
-/

/-- A pandas cell value, as used by the columns the algorithms touch. -/
inductive Val where
  | str (s : String)
  | int (n : Int)
  | bool (b : Bool)
deriving DecidableEq, Repr

/-- A row: association list from column name to value. -/
abbrev Row := List (String × Val)

/-- A data frame: ordered columns and ordered rows. -/
structure DF where
  cols : List String
  rows : List Row
deriving DecidableEq, Repr

/-- Value of column `c` in row `r` (`none` when the column is absent). -/
def getCol (c : String) (r : Row) : Option Val :=
  List.lookup c r

/-- Set column `c` of row `r` to `v`: replaced in place when present
(pandas keeps the column position), appended at the end otherwise. -/
def setCol (r : Row) (c : String) (v : Val) : Row :=
  if r.any (fun kv => kv.1 == c) then
    r.map (fun kv => if kv.1 == c then (c, v) else kv)
  else
    r ++ [(c, v)]

/-- Remove column `c` from a row (`df.drop(c, axis=1)` at row level). -/
def dropCol (c : String) (r : Row) : Row :=
  r.filter (fun kv => kv.1 != c)

/-- The duplicate key of a row over a subset of columns:
the tuple of values of those columns. -/
def subsetKey (cs : List String) (r : Row) : List (Option Val) :=
  cs.map (fun c => getCol c r)

/-- The stub test of line 34/35 of the source: `df['LoC'] <= 1` at one row.
Rows whose `LoC` is absent or not an integer count as non-stubs here; the
claims only exercise integer `LoC` values, where this matches pandas. -/
def locLE1 (r : Row) : Bool :=
  match getCol "LoC" r with
  | some (.int n) => n ≤ 1
  | _ => false

/-- Adds the derived `Stub` column to one row (lines 34-35 of the source). -/
def addStubRow (r : Row) : Row :=
  setCol r "Stub" (.bool (locLE1 r))

/-- Adds the derived `Stub` column to a frame, in place in the source. -/
def addStubDF (df : DF) : DF :=
  { cols := if df.cols.contains "Stub" then df.cols else df.cols ++ ["Stub"],
    rows := df.rows.map addStubRow }

/-- Column list of `pd.concat [a, b]`: `a`'s columns, then `b`'s new ones. -/
def concatCols (a b : List String) : List String :=
  a ++ b.filter (fun c => !(a.contains c))

/-- The frame `pd.concat([a, b])` followed by `reset_index(drop=True)`. -/
def concatDF (a b : DF) : DF :=
  { cols := concatCols a.cols b.cols, rows := a.rows ++ b.rows }

/-- `drop_duplicates(_, keep='first')` core: keep each element whose key has
not occurred before, in order; `seen` holds the keys already kept. -/
def dedupFirstAux {α β : Type} [DecidableEq β] (key : α → β) :
    List β → List α → List α
  | _, [] => []
  | seen, a :: l =>
    if key a ∈ seen then dedupFirstAux key seen l
    else a :: dedupFirstAux key (key a :: seen) l

/-- `l.drop_duplicates(keep='first')` under key function `key`. -/
def dedupFirst {α β : Type} [DecidableEq β] (key : α → β) (l : List α) :
    List α :=
  dedupFirstAux key [] l

/-- `df.drop_duplicates(subset, keep='first')`. -/
def dropDups (subset : List String) (df : DF) : DF :=
  { cols := df.cols, rows := dedupFirst (subsetKey subset) df.rows }

/-- `df.drop(c, axis=1)` on a whole frame. -/
def dropColDF (c : String) (df : DF) : DF :=
  { cols := df.cols.filter (fun c2 => c2 != c), rows := df.rows.map (dropCol c) }

/-- The `GROUP_BY` enum of the source (line 14). -/
inductive GroupBy where
  | fileFunction
  | fileFunctionStub
  | allButDate
  | dontDropDuplicates
deriving DecidableEq, Repr

/-- The body of `merge` (lines 24-60 of the source) with the in-place
`Stub` assignments made explicit: returns the post-call state of `df1`, of
`df2`, and the merge result.  The `ALL_BUT_DATE` branch with no date column
prints `Error: Date column not found` and falls through; printing has no
value-level effect, so that branch returns the concatenation unchanged. -/
def mergeSt (df1 df2 : DF) (mergeType : GroupBy) : DF × DF × DF :=
  let df1 := if mergeType = .fileFunctionStub then addStubDF df1 else df1
  let df2 := if mergeType = .fileFunctionStub then addStubDF df2 else df2
  let result := concatDF df1 df2
  let result :=
    if mergeType = .fileFunction then
      dropDups ["Source File", "Element"] result
    else result
  let result :=
    if mergeType = .fileFunctionStub then
      dropColDF "Stub" (dropDups ["Source File", "Element", "Stub"] result)
    else result
  let result :=
    if mergeType = .allButDate then
      if result.cols.contains "Date" then
        dropDups (result.cols.filter (fun c => c != "Date")) result
      else if result.cols.contains "Date / Version" then
        dropDups (result.cols.filter (fun c => c != "Date / Version")) result
      else result
    else result
  (df1, df2, result)

/-- The value `merge` returns (its inputs' post-states live in `mergeSt`). -/
def merge (df1 df2 : DF) (mergeType : GroupBy) : DF :=
  (mergeSt df1 df2 mergeType).2.2

/-- A calendar date, the part `.dt.date` keeps. -/
structure Date where
  year : Nat
  month : Nat
  day : Nat
deriving DecidableEq, Repr

/-- Ordering of dates, `date1 <= date2`. -/
def dateLE (a b : Date) : Bool :=
  a.year < b.year ||
    (a.year == b.year &&
      (a.month < b.month || (a.month == b.month && a.day ≤ b.day)))

/-- A parsed row timestamp: the date plus the time-of-day and the written
timezone offset, which the cutoff comparison never reads. -/
structure Timestamp where
  date : Date
  hour : Nat
  minute : Nat
  second : Nat
  tz : String
deriving DecidableEq, Repr

/-- Split a character list at a separator character, like Python's
`str.split(sep)` and `String.splitOn` for a one-character separator
(structurally recursive so proofs can evaluate it). -/
def splitOnChar (sep : Char) : List Char → List (List Char)
  | [] => [[]]
  | c :: rest =>
    let r := splitOnChar sep rest
    if c = sep then [] :: r
    else
      match r with
      | h :: t => (c :: h) :: t
      | [] => [[c]]

/-- Numeric value of an all-digit character list. -/
def charsToNat (l : List Char) : Nat :=
  l.foldl (fun acc c => acc * 10 + (c.toNat - 48)) 0

/-- `str.toNat?`: a non-empty all-digit token parses to its value. -/
def parseNatChars (l : List Char) : Option Nat :=
  if l.length > 0 && l.all Char.isDigit then some (charsToNat l) else none

/-- Python's `str.endswith` (`String.endsWith`). -/
def strEndsWith (s suf : String) : Bool :=
  suf.data.isSuffixOf s.data

/-- Python's `str.startswith` (`String.startsWith`). -/
def strStartsWith (s pre : String) : Bool :=
  pre.data.isPrefixOf s.data

/-- Abbreviated month names accepted by the `%b` directive. -/
def monthAbbrevs : List String :=
  ["Jan", "Feb", "Mar", "Apr", "May", "Jun",
   "Jul", "Aug", "Sep", "Oct", "Nov", "Dec"]

/-- Abbreviated weekday names accepted by the `%a` directive (parsed but,
as in `strptime`, never checked against the date). -/
def weekdayAbbrevs : List String :=
  ["Mon", "Tue", "Wed", "Thu", "Fri", "Sat", "Sun"]

/-- Month number of an abbreviated month name. -/
def parseMonthAbbrev (mon : List Char) : Option Nat :=
  (monthAbbrevs.findIdx? (fun m => m.data == mon)).map (fun i => i + 1)

/-- The `%z` directive: a sign followed by four digits, kept as written. -/
def parseTZ (tz : List Char) : Option String :=
  match tz with
  | sign :: digits =>
    if (sign = '+' || sign = '-') && digits.length = 4
        && digits.all Char.isDigit then
      some (String.mk tz)
    else none
  | [] => none

/-- The `%H:%M:%S` part of the row-date format. -/
def parseTime (t : List Char) : Option (Nat × Nat × Nat) :=
  match splitOnChar ':' t with
  | [h, m, sec] => do
    let hn ← parseNatChars h
    let mn ← parseNatChars m
    let sn ← parseNatChars sec
    if hn ≤ 23 && mn ≤ 59 && sn ≤ 61 then some (hn, mn, sn) else none
  | _ => none

/-- `datetime.strptime(s, '%d.%m.%Y').date()` (line 78 of the source), the
single fixed cutoff format.  Day-in-month validity beyond the 1..31 range is
not rechecked; the claims only use calendar-valid dates. -/
def parseDDMMYYYY (s : String) : Option Date :=
  match splitOnChar '.' s.data with
  | [d, m, y] => do
    let dn ← parseNatChars d
    let mn ← parseNatChars m
    let yn ← parseNatChars y
    if 1 ≤ dn && dn ≤ 31 && 1 ≤ mn && mn ≤ 12 then
      some ⟨yn, mn, dn⟩
    else none
  | _ => none

/-- `pd.to_datetime(s, format='%a, %d %b %Y %H:%M:%S %z')` for one value
(line 80 of the source), the single fixed row-date format, e.g.
`Sun, 03 Nov 2013 14:22:05 +0100`.  The date fields are kept as written,
which is what `.dt.date` of a timezone-aware timestamp yields. -/
def parseReportDate (s : String) : Option Timestamp :=
  match splitOnChar ' ' s.data with
  | [wd, d, mon, y, time, tz] => do
    let wdName ← match wd.reverse with
      | ',' :: wrest => some wrest.reverse
      | _ => none
    if weekdayAbbrevs.any (fun w => w.data == wdName) then
      let dn ← parseNatChars d
      let mn ← parseMonthAbbrev mon
      let yn ← parseNatChars y
      let t ← parseTime time
      let tzs ← parseTZ tz
      if 1 ≤ dn && dn ≤ 31 then
        some ⟨⟨yn, mn, dn⟩, t.1, t.2.1, t.2.2, tzs⟩
      else none
    else none
  | _ => none

/-- The parsed `DateObject` of one row: its `Date` column run through the
fixed row-date format. -/
def rowTs (r : Row) : Option Timestamp :=
  match getCol "Date" r with
  | some (.str s) => parseReportDate s
  | _ => none

/-- Lines 78-82 of the source as one function: parse the cutoff with
`%d.%m.%Y`, parse every row's `Date` with the fixed row format (failure of
either parse raises, hence `none`), keep the rows whose date part is `<=`
the cutoff, and drop the transient `DateObject` column (here: never add
it to the rows). -/
def filterByCutoff (df : DF) (lastDate : String) : Option DF :=
  match parseDDMMYYYY lastDate with
  | none => none
  | some d =>
    if df.rows.all (fun r => (rowTs r).isSome) then
      some { cols := df.cols,
             rows := df.rows.filter (fun r =>
               match rowTs r with
               | some t => dateLE t.date d
               | none => false) }
    else none

/-- Lines 62-84 of the source.  Loading is external: the caller passes, per
period in order, `some df` when the period's report folder exists and
`none` when it is missing (the source prints a diagnostic and skips it).
The accumulator starts at Python `None`; with a cutoff but no loaded
report, line 80 subscript-assigns into `None` and raises `TypeError`. -/
def mergeErrorReports (reports : List (Option DF)) (mergeType : GroupBy)
    (lastDate : Option String) : Except String (Option DF) :=
  let result := reports.foldl (fun acc report =>
    match report with
    | none => acc
    | some df =>
      match acc with
      | none => some df
      | some r => some (merge r df mergeType)) none
  match lastDate with
  | none => .ok result
  | some lastDate =>
    match result with
    | none => .error "TypeError: NoneType object does not support item assignment"
    | some df =>
      match filterByCutoff df lastDate with
      | none => .error "ValueError: time data does not match format"
      | some out => .ok (some out)

/-- Line 135 of the source: does a manifest entry's `File` mark this row as
edited?  A path ending in `.c` or `.h` must equal the row's `Source File`
exactly; any other path matches by `str.startswith`. -/
def entryMatches (file : String) (r : Row) : Bool :=
  match getCol "Source File" r with
  | some (.str s) =>
    if strEndsWith file ".c" || strEndsWith file ".h" then s == file
    else strStartsWith s file
  | _ => false

/-- Lines 127-129 of the source: when `modifiedFlags` is given, manifest
entries whose `Modified` flag is not in it are dropped before matching. -/
def effectiveDiff (diff : List (String × String))
    (modifiedFlags : Option (List String)) : List (String × String) :=
  match modifiedFlags with
  | some flags => diff.filter (fun e => flags.contains e.2)
  | none => diff

/-- Lines 124-146 of the source: mark each row edited when some effective
manifest entry (`(File, Modified)` pair) matches it, keep the marked rows,
drop the transient `Edited` column (here: never add it to the rows). -/
def filterByDiffRows (df : List Row) (diff : List (String × String))
    (modifiedFlags : Option (List String)) : List Row :=
  df.filter (fun r =>
    (effectiveDiff diff modifiedFlags).any (fun e => entryMatches e.1 r))

/-- A Python value as seen by `len`. -/
inductive PyVal where
  | int (n : Nat)
  | list (l : List Row)
  | str (s : String)

/-- Python's `len`: defined on sequences, a `TypeError` on an integer. -/
def pyLen : PyVal → Except String Nat
  | .list l => .ok l.length
  | .str s => .ok s.length
  | .int _ => .error "TypeError: object of type int has no len()"

/-- The whole body of `filterByDiff` (lines 122-151 of the source): compute
the kept rows, then run the diagnostic of line 150, which evaluates
`len(nRowsAfter)` where `nRowsAfter = len(df)` is an integer, and only then
return the kept rows. -/
def filterByDiff (df : List Row) (diff : List (String × String))
    (modifiedFlags : Option (List String)) : Except String (List Row) := do
  let nRowsBefore := df.length
  let kept := filterByDiffRows df diff modifiedFlags
  let nRowsAfter := kept.length
  let lenOfAfter ← pyLen (.int nRowsAfter)
  let _dropped := nRowsBefore - lenOfAfter
  pure kept

/-- A frame none of whose rows carries a `Stub` column (the schema of §3:
`Stub` is only ever derived internally by the merge engine). -/
def dfNoStub (df : DF) : Bool :=
  df.rows.all (fun r => !(r.any (fun kv => kv.1 == "Stub")))

/-- The duplicate key of a row under a policy, `none` when the policy
defines no duplicates (identity policy, or `ALL_BUT_DATE` finding no date
column): the source then drops nothing.  `cols` are the columns of the
concatenated frame, which only `ALL_BUT_DATE` consults. -/
def dupKey (p : GroupBy) (cols : List String) (r : Row) :
    Option (List (Option Val)) :=
  match p with
  | .fileFunction => some (subsetKey ["Source File", "Element"] r)
  | .fileFunctionStub =>
    some [getCol "Source File" r, getCol "Element" r,
          some (.bool (locLE1 r))]
  | .allButDate =>
    if cols.contains "Date" then
      some (subsetKey (cols.filter (fun c => c != "Date")) r)
    else if cols.contains "Date / Version" then
      some (subsetKey (cols.filter (fun c => c != "Date / Version")) r)
    else none
  | .dontDropDuplicates => none

section DedupLemmas

variable {α β : Type} [DecidableEq β]

theorem mem_of_mem_dedupFirstAux (key : α → β) :
    ∀ (l : List α) (seen : List β) (x : α),
      x ∈ dedupFirstAux key seen l → x ∈ l := by
  intro l
  induction l with
  | nil => intro seen x h; simp [dedupFirstAux] at h
  | cons a l ih =>
    intro seen x h
    rw [dedupFirstAux] at h
    by_cases ha : key a ∈ seen
    · rw [if_pos ha] at h
      exact List.mem_cons_of_mem a (ih seen x h)
    · rw [if_neg ha] at h
      rcases List.mem_cons.mp h with h | h
      · exact h ▸ List.mem_cons_self a l
      · exact List.mem_cons_of_mem a (ih _ x h)

theorem key_not_seen_of_mem_dedupFirstAux (key : α → β) :
    ∀ (l : List α) (seen : List β) (x : α),
      x ∈ dedupFirstAux key seen l → key x ∉ seen := by
  intro l
  induction l with
  | nil => intro seen x h; simp [dedupFirstAux] at h
  | cons a l ih =>
    intro seen x h
    rw [dedupFirstAux] at h
    by_cases ha : key a ∈ seen
    · rw [if_pos ha] at h
      exact ih seen x h
    · rw [if_neg ha] at h
      rcases List.mem_cons.mp h with h | h
      · exact h ▸ ha
      · intro hks
        exact ih _ x h (List.mem_cons_of_mem _ hks)

theorem pairwise_dedupFirstAux (key : α → β) :
    ∀ (l : List α) (seen : List β),
      (dedupFirstAux key seen l).Pairwise (fun x y => key x ≠ key y) := by
  intro l
  induction l with
  | nil => intro seen; simp [dedupFirstAux]
  | cons a l ih =>
    intro seen
    rw [dedupFirstAux]
    by_cases ha : key a ∈ seen
    · rw [if_pos ha]; exact ih seen
    · rw [if_neg ha]
      refine List.pairwise_cons.mpr ⟨?_, ih _⟩
      intro y hy
      have := key_not_seen_of_mem_dedupFirstAux key l (key a :: seen) y hy
      intro hk
      exact this (hk ▸ List.mem_cons_self _ _)

theorem pairwise_dedupFirst (key : α → β) (l : List α) :
    (dedupFirst key l).Pairwise (fun x y => key x ≠ key y) :=
  pairwise_dedupFirstAux key l []

theorem filter_dedupFirstAux (key : α → β) (k : β) :
    ∀ (l : List α) (seen : List β),
      (dedupFirstAux key seen l).filter (fun a => decide (key a = k))
        = if k ∈ seen then [] else
            (l.find? (fun a => decide (key a = k))).toList := by
  intro l
  induction l with
  | nil => intro seen; simp [dedupFirstAux]
  | cons a l ih =>
    intro seen
    rw [dedupFirstAux]
    by_cases ha : key a ∈ seen
    · rw [if_pos ha, ih]
      by_cases hk : k ∈ seen
      · simp [hk]
      · have hne : ¬ (key a = k) := fun h => hk (h ▸ ha)
        simp [hk, List.find?, hne]
    · rw [if_neg ha]
      by_cases hak : key a = k
      · have hk : k ∉ seen := fun h => ha (hak ▸ h)
        rw [List.filter_cons_of_pos (by simpa using hak), ih]
        have : k ∈ key a :: seen := by simp [hak]
        simp [this, hk, List.find?, hak]
      · rw [List.filter_cons_of_neg (by simpa using hak), ih]
        by_cases hk : k ∈ seen
        · have : k ∈ key a :: seen := List.mem_cons_of_mem _ hk
          simp [this, hk]
        · have : k ∉ key a :: seen := by
            intro h
            rcases List.mem_cons.mp h with h | h
            · exact hak h.symm
            · exact hk h
          simp [this, hk, List.find?, hak]

theorem filter_dedupFirst (key : α → β) (k : β) (l : List α) :
    (dedupFirst key l).filter (fun a => decide (key a = k))
      = (l.find? (fun a => decide (key a = k))).toList := by
  rw [dedupFirst, filter_dedupFirstAux]
  simp

theorem dedupFirstAux_map {γ : Type} (key : γ → β) (f : α → γ) :
    ∀ (l : List α) (seen : List β),
      dedupFirstAux key seen (l.map f)
        = (dedupFirstAux (fun a => key (f a)) seen l).map f := by
  intro l
  induction l with
  | nil => intro seen; simp [dedupFirstAux]
  | cons a l ih =>
    intro seen
    rw [List.map_cons, dedupFirstAux, dedupFirstAux]
    by_cases ha : key (f a) ∈ seen
    · rw [if_pos ha, if_pos ha, ih]
    · rw [if_neg ha, if_neg ha, List.map_cons, ih]

theorem dedupFirst_map {γ : Type} (key : γ → β) (f : α → γ) (l : List α) :
    dedupFirst key (l.map f) = (dedupFirst (fun a => key (f a)) l).map f :=
  dedupFirstAux_map key f l []

end DedupLemmas

section ColumnLemmas

theorem lookup_map_setCol (c : String) (v : Val) :
    ∀ (r : Row), r.any (fun kv => kv.1 == c) = true →
      List.lookup c (r.map (fun kv => if kv.1 == c then (c, v) else kv))
        = some v := by
  intro r
  induction r with
  | nil => intro h; simp at h
  | cons kv r ih =>
    obtain ⟨key, b⟩ := kv
    intro h
    by_cases h1 : key = c
    · subst h1
      simp only [List.map_cons]
      rw [show (if ((key, b).1 == key) = true then (key, v) else (key, b))
            = (key, v) by simp]
      simp [List.lookup]
    · have h2 : (key == c) = false := by simp [h1]
      have h3 : (c == key) = false := by simp [Ne.symm h1]
      simp only [List.map_cons]
      rw [show (if ((key, b).1 == c) = true then (c, v) else (key, b))
            = (key, b) by simp [h2]]
      simp only [List.lookup, h3]
      apply ih
      simpa [h2] using h

theorem lookup_append_single (c : String) (v : Val) :
    ∀ (r : Row), r.any (fun kv => kv.1 == c) = false →
      List.lookup c (r ++ [(c, v)]) = some v := by
  intro r
  induction r with
  | nil => intro _; simp [List.lookup]
  | cons kv r ih =>
    obtain ⟨key, b⟩ := kv
    intro h
    simp only [List.any_cons, Bool.or_eq_false_iff] at h
    have h3 : (c == key) = false := by
      have : ¬ key = c := by simpa using h.1
      simp [Ne.symm this]
    simp only [List.cons_append, List.lookup, h3]
    exact ih h.2

theorem getCol_setCol_self (c : String) (v : Val) (r : Row) :
    getCol c (setCol r c v) = some v := by
  unfold getCol setCol
  by_cases h : r.any (fun kv => kv.1 == c) = true
  · rw [if_pos h]
    exact lookup_map_setCol c v r h
  · rw [if_neg h]
    refine lookup_append_single c v r ?_
    revert h
    cases r.any (fun kv => kv.1 == c) <;> simp

theorem lookup_map_setCol_ne (c c' : String) (v : Val) (hne : c' ≠ c) :
    ∀ (r : Row),
      List.lookup c' (r.map (fun kv => if kv.1 == c then (c, v) else kv))
        = List.lookup c' r := by
  intro r
  induction r with
  | nil => simp
  | cons kv r ih =>
    obtain ⟨key, b⟩ := kv
    simp only [List.map_cons]
    by_cases h1 : key = c
    · subst h1
      have hc : (c' == key) = false := by simp [hne]
      rw [show (if ((key, b).1 == key) = true then (key, v) else (key, b))
            = (key, v) by simp]
      simp only [List.lookup, hc, ih]
    · have h2 : (key == c) = false := by simp [h1]
      rw [show (if ((key, b).1 == c) = true then (c, v) else (key, b))
            = (key, b) by simp [h2]]
      simp only [List.lookup, ih]

theorem lookup_append_single_ne (c c' : String) (v : Val) (hne : c' ≠ c) :
    ∀ (r : Row), List.lookup c' (r ++ [(c, v)]) = List.lookup c' r := by
  intro r
  induction r with
  | nil =>
    have hc : (c' == c) = false := by simp [hne]
    simp [List.lookup, hc]
  | cons kv r ih =>
    obtain ⟨key, b⟩ := kv
    simp only [List.cons_append]
    cases hk : c' == key <;> simp [List.lookup, hk, ih]

theorem getCol_setCol_ne (c c' : String) (v : Val) (hne : c' ≠ c) (r : Row) :
    getCol c' (setCol r c v) = getCol c' r := by
  unfold getCol setCol
  by_cases h : r.any (fun kv => kv.1 == c) = true
  · rw [if_pos h]
    exact lookup_map_setCol_ne c c' v hne r
  · rw [if_neg h]
    exact lookup_append_single_ne c c' v hne r

theorem dropCol_setCol_not_mem (c : String) (v : Val) (r : Row)
    (h : r.any (fun kv => kv.1 == c) = false) :
    dropCol c (setCol r c v) = r := by
  unfold setCol dropCol
  rw [if_neg (by simp [h])]
  rw [List.filter_append]
  have h1 : List.filter (fun kv => kv.1 != c) [(c, v)] = [] := by simp
  have h2 : List.filter (fun kv => kv.1 != c) r = r := by
    apply List.filter_eq_self.mpr
    intro kv hkv
    by_contra hc
    have hkc : (kv.1 == c) = true := by
      cases hb : (kv.1 == c)
      · exact absurd (by simp [bne, hb]) hc
      · rfl
    have : r.any (fun kv => kv.1 == c) = true :=
      List.any_eq_true.mpr ⟨kv, hkv, hkc⟩
    rw [this] at h
    exact Bool.noConfusion h
  rw [h1, h2, List.append_nil]

theorem subsetKey_addStubRow (r : Row) :
    subsetKey ["Source File", "Element", "Stub"] (addStubRow r)
      = [getCol "Source File" r, getCol "Element" r,
         some (.bool (locLE1 r))] := by
  unfold subsetKey addStubRow
  simp only [List.map_cons, List.map_nil, List.cons.injEq, and_true]
  refine ⟨getCol_setCol_ne _ _ _ (by decide) r,
          getCol_setCol_ne _ _ _ (by decide) r,
          getCol_setCol_self _ _ r⟩

end ColumnLemmas

section MergeLemmas

theorem merge_dontDrop_eq (A B : DF) :
    merge A B .dontDropDuplicates = concatDF A B := rfl

theorem merge_fileFunction_rows (A B : DF) :
    (merge A B .fileFunction).rows
      = dedupFirst (subsetKey ["Source File", "Element"])
          (A.rows ++ B.rows) := rfl

theorem merge_fileFunctionStub_eq (A B : DF) :
    merge A B .fileFunctionStub
      = dropColDF "Stub" (dropDups ["Source File", "Element", "Stub"]
          (concatDF (addStubDF A) (addStubDF B))) := rfl

theorem merge_allButDate_eq (A B : DF) :
    merge A B .allButDate =
      (if (concatDF A B).cols.contains "Date" then
        dropDups ((concatDF A B).cols.filter (fun c => c != "Date"))
          (concatDF A B)
      else if (concatDF A B).cols.contains "Date / Version" then
        dropDups ((concatDF A B).cols.filter (fun c => c != "Date / Version"))
          (concatDF A B)
      else concatDF A B) := rfl

theorem dfNoStub_row {df : DF} (h : dfNoStub df = true) {r : Row}
    (hr : r ∈ df.rows) : r.any (fun kv => kv.1 == "Stub") = false := by
  have := List.all_eq_true.mp h r hr
  simpa using this

theorem merge_stub_rows (A B : DF) (hA : dfNoStub A = true)
    (hB : dfNoStub B = true) :
    (merge A B .fileFunctionStub).rows
      = dedupFirst
          (fun r => [getCol "Source File" r, getCol "Element" r,
                     some (Val.bool (locLE1 r))])
          (A.rows ++ B.rows) := by
  have h1 : (merge A B .fileFunctionStub).rows
      = (dedupFirst (subsetKey ["Source File", "Element", "Stub"])
          ((A.rows ++ B.rows).map addStubRow)).map (dropCol "Stub") := by
    rw [merge_fileFunctionStub_eq]
    simp [dropColDF, dropDups, concatDF, addStubDF, List.map_append]
  rw [h1, dedupFirst_map, List.map_map]
  have hkey : (fun a => subsetKey ["Source File", "Element", "Stub"]
        (addStubRow a))
      = fun r => [getCol "Source File" r, getCol "Element" r,
                  some (Val.bool (locLE1 r))] := by
    funext r; exact subsetKey_addStubRow r
  rw [hkey]
  have hid : ∀ r ∈ dedupFirst
      (fun r => [getCol "Source File" r, getCol "Element" r,
                 some (Val.bool (locLE1 r))]) (A.rows ++ B.rows),
      (dropCol "Stub" ∘ addStubRow) r = id r := by
    intro r hr
    have hrl : r ∈ A.rows ++ B.rows :=
      mem_of_mem_dedupFirstAux _ _ _ _ hr
    have hnostub : r.any (fun kv => kv.1 == "Stub") = false := by
      rcases List.mem_append.mp hrl with h | h
      · exact dfNoStub_row hA h
      · exact dfNoStub_row hB h
    simp only [Function.comp_apply, id_eq]
    unfold addStubRow
    exact dropCol_setCol_not_mem _ _ _ hnostub
  rw [List.map_congr_left hid, List.map_id]

theorem contains_true_mem {l : List String} {a : String}
    (h : l.contains a = true) : a ∈ l := by simpa using h

theorem contains_false_not_mem {l : List String} {a : String}
    (h : l.contains a = false) : a ∉ l := by simpa using h

theorem merge_allButDate_rows_date (A B : DF)
    (h : (concatCols A.cols B.cols).contains "Date" = true) :
    (merge A B .allButDate).rows
      = dedupFirst
          (subsetKey ((concatCols A.cols B.cols).filter (fun c => c != "Date")))
          (A.rows ++ B.rows) := by
  rw [merge_allButDate_eq, if_pos (show (concatDF A B).cols.contains "Date" = true from h)]
  rfl

theorem merge_allButDate_rows_dv (A B : DF)
    (hD : (concatCols A.cols B.cols).contains "Date" = false)
    (hV : (concatCols A.cols B.cols).contains "Date / Version" = true) :
    (merge A B .allButDate).rows
      = dedupFirst
          (subsetKey ((concatCols A.cols B.cols).filter
            (fun c => c != "Date / Version")))
          (A.rows ++ B.rows) := by
  rw [merge_allButDate_eq,
    if_neg (show ¬ (concatDF A B).cols.contains "Date" = true from
      fun hc => contains_false_not_mem hD (contains_true_mem hc)),
    if_pos (show (concatDF A B).cols.contains "Date / Version" = true from hV)]
  rfl

theorem merge_allButDate_no_date_eq (A B : DF)
    (hD : (concatCols A.cols B.cols).contains "Date" = false)
    (hV : (concatCols A.cols B.cols).contains "Date / Version" = false) :
    merge A B .allButDate = concatDF A B := by
  rw [merge_allButDate_eq,
    if_neg (show ¬ (concatDF A B).cols.contains "Date" = true from
      fun hc => contains_false_not_mem hD (contains_true_mem hc)),
    if_neg (show ¬ (concatDF A B).cols.contains "Date / Version" = true from
      fun hc => contains_false_not_mem hV (contains_true_mem hc))]

theorem filter_const_false {α : Type} (l : List α) :
    l.filter (fun _ => false) = [] := by
  induction l <;> simp_all [List.filter]

theorem find?_const_false {α : Type} (l : List α) :
    l.find? (fun _ => false) = none := by
  induction l <;> simp_all [List.find?]

end MergeLemmas

/-! Concrete scenario data shared by several theorems: the one-row frames of
the spec's stub scenario, and a frame with no date column. -/

def rowXc1 : Row :=
  [("Source File", .str "x.c"), ("Element", .str "f"), ("LoC", .int 1)]

def rowXc5 : Row :=
  [("Source File", .str "x.c"), ("Element", .str "f"), ("LoC", .int 5)]

def dfXc1 : DF := ⟨["Source File", "Element", "LoC"], [rowXc1]⟩

def dfXc5 : DF := ⟨["Source File", "Element", "LoC"], [rowXc5]⟩

def rowNoDate : Row := [("Source File", .str "x.c"), ("Element", .str "f")]

def dfNoDate : DF := ⟨["Source File", "Element"], [rowNoDate]⟩

/-- C1: for every pair of tables and every policy, `merge` concatenates A
then B and keeps, for each duplicate key, exactly the first occurrence in
concatenation order: the rows of the result carrying key `k` are exactly
the first row of A with key `k` when A has one, else the first row of B
with key `k`.  Under the policies that define no duplicate key for a row
(`DONT_DROP_DUPLICATES`, or `ALL_BUT_DATE` with no date column) no pair of
rows collides and both sides are empty.  For `FILE_FUNCTION_STUB` the
inputs are assumed free of a pre-existing `Stub` column (§3: `Stub` is
derived internally). -/
theorem merge_first_occurrence_wins (p : GroupBy) (A B : DF)
    (k : List (Option Val))
    (hstub : p = .fileFunctionStub → dfNoStub A = true ∧ dfNoStub B = true) :
    (merge A B p).rows.filter
        (fun r => decide (dupKey p (concatCols A.cols B.cols) r = some k))
      = ((A.rows.find?
            (fun r => decide (dupKey p (concatCols A.cols B.cols) r = some k))).or
          (B.rows.find?
            (fun r => decide (dupKey p (concatCols A.cols B.cols) r = some k)))).toList := by
  cases p with
  | fileFunction =>
    have hpred : (fun r => decide (dupKey .fileFunction
          (concatCols A.cols B.cols) r = some k))
        = fun r => decide (subsetKey ["Source File", "Element"] r = k) := by
      funext r; simp [dupKey]
    rw [hpred, merge_fileFunction_rows, filter_dedupFirst, List.find?_append]
  | fileFunctionStub =>
    obtain ⟨hA, hB⟩ := hstub rfl
    have hpred : (fun r => decide (dupKey .fileFunctionStub
          (concatCols A.cols B.cols) r = some k))
        = fun r => decide ([getCol "Source File" r, getCol "Element" r,
            some (Val.bool (locLE1 r))] = k) := by
      funext r; simp [dupKey]
    rw [hpred, merge_stub_rows A B hA hB, filter_dedupFirst, List.find?_append]
  | allButDate =>
    by_cases hD : (concatCols A.cols B.cols).contains "Date" = true
    · have hpred : (fun r => decide (dupKey .allButDate
            (concatCols A.cols B.cols) r = some k))
          = fun r => decide (subsetKey
              ((concatCols A.cols B.cols).filter (fun c => c != "Date")) r = k) := by
        funext r; simp [dupKey, contains_true_mem hD]
      rw [hpred, merge_allButDate_rows_date A B hD, filter_dedupFirst,
        List.find?_append]
    · have hD' : (concatCols A.cols B.cols).contains "Date" = false := by
        simpa using hD
      by_cases hV : (concatCols A.cols B.cols).contains "Date / Version" = true
      · have hpred : (fun r => decide (dupKey .allButDate
              (concatCols A.cols B.cols) r = some k))
            = fun r => decide (subsetKey
                ((concatCols A.cols B.cols).filter
                  (fun c => c != "Date / Version")) r = k) := by
          funext r
          simp [dupKey, contains_false_not_mem hD', contains_true_mem hV]
        rw [hpred, merge_allButDate_rows_dv A B hD' hV, filter_dedupFirst,
          List.find?_append]
      · have hV' : (concatCols A.cols B.cols).contains "Date / Version" = false := by
          simpa using hV
        have hpred : (fun r => decide (dupKey .allButDate
              (concatCols A.cols B.cols) r = some k))
            = fun _ => false := by
          funext r
          simp [dupKey, contains_false_not_mem hD', contains_false_not_mem hV']
        rw [hpred, filter_const_false, find?_const_false, find?_const_false]
        rfl
  | dontDropDuplicates =>
    have hpred : (fun r => decide (dupKey .dontDropDuplicates
          (concatCols A.cols B.cols) r = some k))
        = fun _ => false := by
      funext r; simp [dupKey]
    rw [hpred, filter_const_false, find?_const_false, find?_const_false]
    rfl

/-- Witness for C1 at the spec's stub scenario: policy
`FILE_FUNCTION_STUB`, key (`x.c`, `f`, stub = true). -/
theorem merge_first_occurrence_wins_witness :
    (merge dfXc1 dfXc5 .fileFunctionStub).rows.filter
        (fun r => decide (dupKey .fileFunctionStub
          (concatCols dfXc1.cols dfXc5.cols) r
          = some [some (Val.str "x.c"), some (Val.str "f"),
                  some (Val.bool true)]))
      = ((dfXc1.rows.find?
            (fun r => decide (dupKey .fileFunctionStub
              (concatCols dfXc1.cols dfXc5.cols) r
              = some [some (Val.str "x.c"), some (Val.str "f"),
                      some (Val.bool true)]))).or
          (dfXc5.rows.find?
            (fun r => decide (dupKey .fileFunctionStub
              (concatCols dfXc1.cols dfXc5.cols) r
              = some [some (Val.str "x.c"), some (Val.str "f"),
                      some (Val.bool true)])))).toList :=
  merge_first_occurrence_wins .fileFunctionStub dfXc1 dfXc5
    [some (Val.str "x.c"), some (Val.str "f"), some (Val.bool true)]
    (by decide)

/-- C2, corrected: when neither `Date` nor `Date / Version` is among the
columns of the concatenated frame, `merge` under `ALL_BUT_DATE` prints
`Error: Date column not found` and returns the concatenation, reindexed,
without any deduplication — it does not raise a fatal error. -/
theorem merge_allButDate_missing_date_returns_concat (A B : DF)
    (hD : (concatCols A.cols B.cols).contains "Date" = false)
    (hV : (concatCols A.cols B.cols).contains "Date / Version" = false) :
    merge A B .allButDate = concatDF A B :=
  merge_allButDate_no_date_eq A B hD hV

/-- Witness for the corrected C2 at a concrete pair of date-free frames. -/
theorem merge_allButDate_missing_date_returns_concat_witness :
    merge dfNoDate dfNoDate .allButDate = concatDF dfNoDate dfNoDate :=
  merge_allButDate_missing_date_returns_concat dfNoDate dfNoDate
    (by decide) (by decide)

/-- Counterexample to C2 as stated: merging two identical one-row frames
with no date column under `ALL_BUT_DATE` completes normally and returns the
concatenation with the duplicate row retained, instead of failing. -/
theorem merge_allButDate_missing_date_counterexample :
    merge dfNoDate dfNoDate .allButDate = concatDF dfNoDate dfNoDate ∧
      (merge dfNoDate dfNoDate .allButDate).rows = [rowNoDate, rowNoDate] :=
  ⟨merge_allButDate_no_date_eq dfNoDate dfNoDate (by decide) (by decide), rfl⟩

/-- C3: under every non-identity policy, no two rows of the merge result
share the policy's duplicate key.  For `ALL_BUT_DATE` a date column must be
present (the data-model invariant of §3; without it the source performs no
deduplication at all), and for `FILE_FUNCTION_STUB` the inputs carry no
pre-existing `Stub` column. -/
theorem merge_no_duplicate_keys (p : GroupBy) (A B : DF)
    (hp : p ≠ .dontDropDuplicates)
    (hdate : p = .allButDate →
      (concatCols A.cols B.cols).contains "Date" = true ∨
        (concatCols A.cols B.cols).contains "Date / Version" = true)
    (hstub : p = .fileFunctionStub → dfNoStub A = true ∧ dfNoStub B = true) :
    (merge A B p).rows.Pairwise
      (fun r s => dupKey p (concatCols A.cols B.cols) r
        ≠ dupKey p (concatCols A.cols B.cols) s) := by
  cases p with
  | fileFunction =>
    refine List.Pairwise.imp ?_
      (merge_fileFunction_rows A B ▸
        pairwise_dedupFirst (subsetKey ["Source File", "Element"])
          (A.rows ++ B.rows))
    intro a b hab
    simp only [dupKey, ne_eq, Option.some.injEq]
    exact hab
  | fileFunctionStub =>
    obtain ⟨hA, hB⟩ := hstub rfl
    refine List.Pairwise.imp ?_
      (merge_stub_rows A B hA hB ▸
        pairwise_dedupFirst
          (fun r => [getCol "Source File" r, getCol "Element" r,
                     some (Val.bool (locLE1 r))])
          (A.rows ++ B.rows))
    intro a b hab
    simp only [dupKey, ne_eq, Option.some.injEq]
    exact hab
  | allButDate =>
    rcases hdate rfl with hD | hV
    · refine List.Pairwise.imp ?_
        (merge_allButDate_rows_date A B hD ▸
          pairwise_dedupFirst
            (subsetKey ((concatCols A.cols B.cols).filter
              (fun c => c != "Date")))
            (A.rows ++ B.rows))
      intro a b hab
      simpa [dupKey, contains_true_mem hD] using hab
    · by_cases hD : (concatCols A.cols B.cols).contains "Date" = true
      · refine List.Pairwise.imp ?_
          (merge_allButDate_rows_date A B hD ▸
            pairwise_dedupFirst
              (subsetKey ((concatCols A.cols B.cols).filter
                (fun c => c != "Date")))
              (A.rows ++ B.rows))
        intro a b hab
        simpa [dupKey, contains_true_mem hD] using hab
      · have hD' : (concatCols A.cols B.cols).contains "Date" = false := by
          simpa using hD
        refine List.Pairwise.imp ?_
          (merge_allButDate_rows_dv A B hD' hV ▸
            pairwise_dedupFirst
              (subsetKey ((concatCols A.cols B.cols).filter
                (fun c => c != "Date / Version")))
              (A.rows ++ B.rows))
        intro a b hab
        simpa [dupKey, contains_false_not_mem hD', contains_true_mem hV]
          using hab
  | dontDropDuplicates => exact absurd rfl hp

/-- Witness for C3 at the spec's stub scenario. -/
theorem merge_no_duplicate_keys_witness :
    (merge dfXc1 dfXc5 .fileFunctionStub).rows.Pairwise
      (fun r s => dupKey .fileFunctionStub (concatCols dfXc1.cols dfXc5.cols) r
        ≠ dupKey .fileFunctionStub (concatCols dfXc1.cols dfXc5.cols) s) :=
  merge_no_duplicate_keys .fileFunctionStub dfXc1 dfXc5
    (by decide) (by decide) (by decide)

/-- C7, corrected: `merge` leaves both inputs unchanged under every policy
except `FILE_FUNCTION_STUB`; under that policy lines 34-35 of the source
assign a `Stub` column into both input frames in place. -/
theorem merge_preserves_inputs_except_stub (A B : DF) (p : GroupBy)
    (hp : p ≠ .fileFunctionStub) :
    (mergeSt A B p).1 = A ∧ (mergeSt A B p).2.1 = B := by
  cases p
  case fileFunctionStub => exact absurd rfl hp
  all_goals exact ⟨rfl, rfl⟩

/-- Witness for the corrected C7 under `FILE_FUNCTION`. -/
theorem merge_preserves_inputs_except_stub_witness :
    (mergeSt dfXc1 dfXc5 .fileFunction).1 = dfXc1 ∧
      (mergeSt dfXc1 dfXc5 .fileFunction).2.1 = dfXc5 :=
  merge_preserves_inputs_except_stub dfXc1 dfXc5 .fileFunction (by decide)

/-- Counterexample to C7 as stated: under `FILE_FUNCTION_STUB` the first
input comes back from the call mutated — it has acquired a `Stub` column. -/
theorem merge_mutates_inputs_under_stub :
    (mergeSt dfXc1 dfXc5 .fileFunctionStub).1 ≠ dfXc1 ∧
      (mergeSt dfXc1 dfXc5 .fileFunctionStub).1.cols.contains "Stub" = true := by
  constructor
  · decide
  · decide

/-- C8: merging under `DONT_DROP_DUPLICATES` returns exactly the
concatenation of A then B (reindexed, which is the identity on dense row
lists), and its length is `len(A) + len(B)`. -/
theorem merge_keepAllDuplicates_is_concat (A B : DF) :
    merge A B .dontDropDuplicates = concatDF A B ∧
      (merge A B .dontDropDuplicates).rows.length
        = A.rows.length + B.rows.length :=
  ⟨rfl, by simp [merge_dontDrop_eq, concatDF]⟩

/-- C9: the spec's stub scenario.  A = one row (`x.c`, `f`, LoC 1), B = one
row (`x.c`, `f`, LoC 5): under `FILE_FUNCTION_STUB` both rows survive (the
derived stub flags differ) and the `Stub` column is stripped from the
output; under `FILE_FUNCTION` only A's row survives. -/
theorem merge_stub_scenario :
    merge dfXc1 dfXc5 .fileFunctionStub
        = ⟨["Source File", "Element", "LoC"], [rowXc1, rowXc5]⟩ ∧
      merge dfXc1 dfXc5 .fileFunction
        = ⟨["Source File", "Element", "LoC"], [rowXc1]⟩ := by
  constructor
  · decide
  · decide

/-! Scenario data for the cutoff and diff filters. -/

def rowNov3 : Row :=
  [("Source File", .str "a.c"), ("Date", .str "Sun, 03 Nov 2013 23:59:59 +0100")]

def rowNov4 : Row :=
  [("Source File", .str "b.c"), ("Date", .str "Mon, 04 Nov 2013 00:10:00 +0100")]

def dfCutoff : DF := ⟨["Source File", "Date"], [rowNov3, rowNov4]⟩

def rowDrivers : Row := [("Source File", .str "src/drivers/net.c")]

def rowOther : Row := [("Source File", .str "src/other/net.c")]

def rowNetc : Row := [("Source File", .str "src/net.c")]

/-- C4: the date-bound filter parses the cutoff with the single fixed format
`%d.%m.%Y` and each row's date with the single fixed row format; when every
row parses, the filter succeeds, keeps the schema, and retains a row if and
only if the date part of its parsed timestamp (time-of-day and timezone
ignored) is `<=` the cutoff date — rows strictly after the cutoff are
dropped. -/
theorem filterByCutoff_keeps_dates_le (df : DF) (c : String) (d : Date)
    (hd : parseDDMMYYYY c = some d)
    (hall : ∀ r ∈ df.rows, (rowTs r).isSome = true) :
    ∃ out, filterByCutoff df c = some out ∧ out.cols = df.cols ∧
      ∀ r t, r ∈ df.rows → rowTs r = some t →
        (r ∈ out.rows ↔ dateLE t.date d = true) := by
  have hcond : df.rows.all (fun r => (rowTs r).isSome) = true :=
    List.all_eq_true.mpr hall
  refine ⟨⟨df.cols, df.rows.filter (fun r =>
      match rowTs r with
      | some t => dateLE t.date d
      | none => false)⟩, ?_, rfl, ?_⟩
  · simp [filterByCutoff, hd, hcond]
  · intro r t hr ht
    constructor
    · intro hmem
      have hp := (List.mem_filter.mp hmem).2
      simpa [ht] using hp
    · intro hle
      exact List.mem_filter.mpr ⟨hr, by simp [ht, hle]⟩

/-- Witness for C4 at the spec's cutoff scenario: cutoff `03.11.2013`, a
row dated `Sun, 03 Nov 2013` retained (inclusive bound, despite its late
time of day), a row dated `Mon, 04 Nov 2013` dropped. -/
theorem filterByCutoff_keeps_dates_le_witness :
    ∃ out, filterByCutoff dfCutoff "03.11.2013" = some out ∧
      rowNov3 ∈ out.rows ∧ rowNov4 ∉ out.rows := by
  obtain ⟨out, hout, hcols, hmem⟩ :=
    filterByCutoff_keeps_dates_le dfCutoff "03.11.2013" ⟨2013, 11, 3⟩
      (by decide) (by decide)
  refine ⟨out, hout, ?_, ?_⟩
  · exact (hmem rowNov3 ⟨⟨2013, 11, 3⟩, 23, 59, 59, "+0100"⟩
      (by decide) (by decide)).mpr (by decide)
  · intro hmem4
    exact absurd ((hmem rowNov4 ⟨⟨2013, 11, 4⟩, 0, 10, 0, "+0100"⟩
      (by decide) (by decide)).mp hmem4) (by decide)

/-- C5: in the diff filter, a manifest entry whose path ends in `.c` or
`.h` matches a row exactly when the entry's path equals the row's
`Source File`; any other entry matches exactly when the row's
`Source File` starts with the entry's path; and a row is retained if and
only if at least one effective manifest entry matches it. -/
theorem filterByDiff_matching (file : String) (r : Row) (s : String)
    (df : List Row) (diff : List (String × String))
    (modifiedFlags : Option (List String))
    (hs : getCol "Source File" r = some (.str s)) :
    ((strEndsWith file ".c" || strEndsWith file ".h") = true →
        (entryMatches file r = true ↔ s = file)) ∧
    ((strEndsWith file ".c" || strEndsWith file ".h") = false →
        (entryMatches file r = true ↔ strStartsWith s file = true)) ∧
    (∀ r2, r2 ∈ filterByDiffRows df diff modifiedFlags ↔
        r2 ∈ df ∧ ∃ e ∈ effectiveDiff diff modifiedFlags,
          entryMatches e.1 r2 = true) := by
  refine ⟨?_, ?_, ?_⟩
  · intro hsuf
    simp [entryMatches, hs, hsuf]
  · intro hsuf
    simp [entryMatches, hs, hsuf]
  · intro r2
    simp [filterByDiffRows, List.mem_filter, List.any_eq_true]

/-- Witness for C5 at the spec's diff scenario: manifest entry
`src/drivers` retains `src/drivers/net.c` by folder match and drops
`src/other/net.c`; manifest entry `src/net.c` retains the row whose
`Source File` is exactly `src/net.c`. -/
theorem filterByDiff_matching_witness :
    rowDrivers ∈ filterByDiffRows [rowDrivers, rowOther]
        [("src/drivers", "M")] none ∧
    rowOther ∉ filterByDiffRows [rowDrivers, rowOther]
        [("src/drivers", "M")] none ∧
    rowNetc ∈ filterByDiffRows [rowNetc] [("src/net.c", "M")] none := by
  obtain ⟨h1, h2, h3⟩ :=
    filterByDiff_matching "src/drivers" rowDrivers "src/drivers/net.c"
      [rowDrivers, rowOther] [("src/drivers", "M")] none (by decide)
  refine ⟨?_, ?_, ?_⟩
  · exact (h3 rowDrivers).mpr
      ⟨by decide, ("src/drivers", "M"), by decide, by decide⟩
  · intro hmem
    obtain ⟨-, e, he, hm⟩ := (h3 rowOther).mp hmem
    have he' : e = ("src/drivers", "M") := by
      simpa [effectiveDiff] using he
    rw [he'] at hm
    exact absurd hm (by decide)
  · obtain ⟨-, -, h3'⟩ :=
      filterByDiff_matching "src/net.c" rowNetc "src/net.c"
        [rowNetc] [("src/net.c", "M")] none (by decide)
    exact (h3' rowNetc).mpr
      ⟨by decide, ("src/net.c", "M"), by decide, by decide⟩

/-- C6 (code bug): the full body of `filterByDiff` never reaches its
return: the diagnostic of line 150 evaluates `len(nRowsAfter)` where
`nRowsAfter` is an integer, so every call raises a `TypeError` after
computing the filtered rows. -/
theorem filterByDiff_always_raises (df : List Row)
    (diff : List (String × String)) (modifiedFlags : Option (List String)) :
    filterByDiff df diff modifiedFlags
      = .error "TypeError: object of type int has no len()" := rfl

/-- Fold of the aggregation loop: if every period's report is missing, the
accumulator stays Python `None`. -/
theorem foldl_none_of_all_none (mt : GroupBy) :
    ∀ (reports : List (Option DF)), (∀ x ∈ reports, x = none) →
      reports.foldl (fun acc report =>
        match report with
        | none => acc
        | some df =>
          match acc with
          | none => some df
          | some r => some (merge r df mt)) none = none := by
  intro reports
  induction reports with
  | nil => intro _; rfl
  | cons x l ih =>
    intro h
    have hx : x = none := h x (List.mem_cons_self x l)
    subst hx
    simp only [List.foldl_cons]
    exact ih (fun y hy => h y (List.mem_cons_of_mem _ hy))

/-- C10: when a cutoff date is supplied but no period's report exists, the
accumulator of `mergeErrorReports` is still `None` when the cutoff path
runs, and line 80's subscript assignment into `None` raises a `TypeError`:
the cutoff path requires at least one loaded report. -/
theorem mergeErrorReports_cutoff_requires_report (reports : List (Option DF))
    (mt : GroupBy) (c : String) (h : ∀ x ∈ reports, x = none) :
    mergeErrorReports reports mt (some c)
      = .error "TypeError: NoneType object does not support item assignment" := by
  simp only [mergeErrorReports]
  rw [foldl_none_of_all_none mt reports h]

/-- Witness for C10: two missing periods and the cutoff `03.11.2013`. -/
theorem mergeErrorReports_cutoff_requires_report_witness :
    mergeErrorReports [none, none] .allButDate (some "03.11.2013")
      = .error "TypeError: NoneType object does not support item assignment" :=
  mergeErrorReports_cutoff_requires_report [none, none] .allButDate
    "03.11.2013" (by decide)
